import Mathlib

/-!
Verification of the background GeoJSON import pipeline of maapallo-info
(`server/routes/admin.py`) and the layer registry (`_upsert_layer`, plus the
read-side layer lookup of `server/routes/layers.py`).

The embedding follows the Python source closely:
* JSON values are modelled by the inductive `Json`; Python truthiness
  (`if not geom`, `x or default`) is `pyFalsy` / `pyOr`.
* `dict.get` on a non-dict raises `AttributeError`; `len`/iteration over a
  non-sequence raises `TypeError`.  Fallible steps return `Except String`.
* The job row of `import_jobs` is `JobRecord`; `_update_job`'s partial
  update (only supplied fields change) is `applyUpdate` applied to an
  `Update` whose fields are `Option`s, mirroring the keyword arguments.
  `updated_at` (a timestamp) is not modelled.
* Database success of a single row insert is abstracted by the predicate
  `Env.insertable` on the row's geometry (PostGIS validity is external to
  the repository); a bulk `_flush_batch` succeeds exactly when every row of
  the batch is insertable, matching the all-or-nothing multi-row INSERT.
* Transaction commit points (`db.commit()`, the every-20-rows commit in
  `_flush_batch_individual`) do not change any final state in a sequential,
  crash-free execution and are therefore not represented.
-/

namespace GeoImport

/-- JSON values as produced by `json.load`.  Numbers are modelled as `Int`
(the claims never depend on fractional values). -/
inductive Json where
  | null : Json
  | bool : Bool → Json
  | num : Int → Json
  | str : String → Json
  | arr : List Json → Json
  | obj : List (String × Json) → Json

/-- Python truthiness: `None`, `False`, `0`, `""`, `[]`, `dict()` are falsy. -/
def pyFalsy : Json → Bool
  | Json.null => true
  | Json.bool b => !b
  | Json.num n => n == 0
  | Json.str s => s.isEmpty
  | Json.arr xs => xs.isEmpty
  | Json.obj kvs => kvs.isEmpty

/-- Python `v or d`. -/
def pyOr (v : Json) (d : Json) : Json :=
  if pyFalsy v then d else v

/-- First binding of a key in an association list (JSON objects cannot hold
duplicate keys after parsing). -/
def lookupKey : List (String × Json) → String → Option Json
  | [], _ => none
  | kv :: rest, k => if kv.1 = k then some kv.2 else lookupKey rest k

/-- Python `x.get(k)`: returns `None` for a missing key, raises
`AttributeError` when `x` is not a dict. -/
def pyGet : Json → String → Except String Json
  | Json.obj kvs, k => Except.ok ((lookupKey kvs k).getD Json.null)
  | _, _ => Except.error "AttributeError: object has no attribute get"

/-- The elements Python iterates over (and counts with `len`): lists give
their items, strings their characters, dicts their keys; anything else
raises `TypeError`.  `len(x)` succeeds exactly when iteration does. -/
def pyElems : Json → Except String (List Json)
  | Json.arr xs => Except.ok xs
  | Json.str s => Except.ok (s.toList.map (fun c => Json.str c.toString))
  | Json.obj kvs => Except.ok (kvs.map (fun kv => Json.str kv.1))
  | _ => Except.error "TypeError: object is not iterable"

/-- Whether a JSON value is an object (a Python dict). -/
def isObj : Json → Bool
  | Json.obj _ => true
  | _ => false

/-! ## Layer registry (`_upsert_layer` in admin.py, tables of layers.py) -/

/-- One row of `geo_layers` (the columns the claims mention). -/
structure Layer where
  id : Nat
  name : String
  title : String
  srid : Int
deriving DecidableEq

/-- The `geo_layers` table plus the SERIAL sequence state. -/
structure LayerDB where
  layers : List Layer
  nextId : Nat

/-- Python `title or name` used for the inserted title column. -/
def pyOrStr (t : Option String) (d : String) : String :=
  match t with
  | none => d
  | some s => if s.isEmpty then d else s

/-- `_upsert_layer`: `INSERT ... ON CONFLICT (name) DO NOTHING` followed by
`SELECT id FROM geo_layers WHERE name = :name`; the Python then raises
(`none` here) when the selected id is missing or falsy (`if not layer_id`). -/
def upsertLayer (db : LayerDB) (name : String) (title : Option String) (srid : Int) :
    LayerDB × Option Nat :=
  let db1 :=
    if (db.layers.find? (fun l => l.name == name)).isSome
    then db
    else LayerDB.mk (db.layers ++ [Layer.mk db.nextId name (pyOrStr title name) srid]) (db.nextId + 1)
  match db1.layers.find? (fun l => l.name == name) with
  | some l => if l.id = 0 then (db1, none) else (db1, some l.id)
  | none => (db1, none)

/-- Sanity of a layer table: SERIAL ids are never 0 and the sequence is
positive (always true for a real PostgreSQL SERIAL column). -/
def layerDBok (db : LayerDB) : Bool :=
  db.layers.all (fun l => !(l.id == 0)) && !(db.nextId == 0)

/-- Whether a character survives `regexp_replace(s, '[^a-z0-9]+', '_', 'g')`
unchanged: only lowercase ASCII letters and digits do. -/
def isSlugChar (c : Char) : Bool :=
  (decide (97 ≤ c.toNat) && decide (c.toNat ≤ 122)) ||
    (decide (48 ≤ c.toNat) && decide (c.toNat ≤ 57))

/-- Replace each maximal run of non-`[a-z0-9]` characters by one `_`
(the boolean tracks whether we are inside such a run). -/
def squashNonSlug : List Char → Bool → List Char
  | [], _ => []
  | c :: cs, inRun =>
    if isSlugChar c then c :: squashNonSlug cs false
    else if inRun then squashNonSlug cs true
    else '_' :: squashNonSlug cs true

/-- ASCII lowercasing of one character (PostgreSQL `lower` on ASCII input). -/
def lowerChar (c : Char) : Char :=
  if 65 ≤ c.toNat ∧ c.toNat ≤ 90 then Char.ofNat (c.toNat + 32) else c

/-- The read-side normalization used by `get_layer_geojson` in layers.py:
`lower(regexp_replace(s, '[^a-z0-9]+', '_', 'g'))`.  The replacement runs
before `lower`, so uppercase letters are squashed to `_` as well. -/
def pgSlug (s : String) : String :=
  String.mk ((squashNonSlug s.toList false).map lowerChar)

/-! ## Lemmas about the layer registry -/

theorem find?_append_single_of_none {α} (p : α → Bool) (l : List α) (a : α)
    (h : l.find? p = none) (ha : p a = true) :
    (l ++ [a]).find? p = some a := by
  simp [List.find?_append, h, List.find?, ha]

/-- Result of `_upsert_layer` when a layer with exactly the given name exists. -/
theorem upsertLayer_of_found (db : LayerDB) (nm : String) (t : Option String) (s : Int)
    (l : Layer) (hf : db.layers.find? (fun l => l.name == nm) = some l) :
    upsertLayer db nm t s = if l.id = 0 then (db, none) else (db, some l.id) := by
  simp [upsertLayer, hf]

/-- Result of `_upsert_layer` when no layer with exactly the given name exists:
a fresh row is inserted and its id selected back. -/
theorem upsertLayer_of_none (db : LayerDB) (nm : String) (t : Option String) (s : Int)
    (hf : db.layers.find? (fun l => l.name == nm) = none) :
    upsertLayer db nm t s =
      if db.nextId = 0
      then (LayerDB.mk (db.layers ++ [Layer.mk db.nextId nm (pyOrStr t nm) s]) (db.nextId + 1),
              none)
      else (LayerDB.mk (db.layers ++ [Layer.mk db.nextId nm (pyOrStr t nm) s]) (db.nextId + 1),
              some db.nextId) := by
  have hnew : ((db.layers ++ [Layer.mk db.nextId nm (pyOrStr t nm) s]).find?
      (fun l => l.name == nm)) = some (Layer.mk db.nextId nm (pyOrStr t nm) s) := by
    apply find?_append_single_of_none _ _ _ hf
    simp
  simp [upsertLayer, hf, hnew]

/-- C5: layer upsert is idempotent: the second call with the same name (any
title and srid) returns the same id and leaves the table — in particular the
stored title — untouched (first write wins, via ON CONFLICT DO NOTHING). -/
theorem c5_upsert_idempotent (db : LayerDB) (nm : String) (t1 t2 : Option String)
    (s1 s2 : Int) :
    (upsertLayer (upsertLayer db nm t1 s1).1 nm t2 s2).2 = (upsertLayer db nm t1 s1).2 ∧
    (upsertLayer (upsertLayer db nm t1 s1).1 nm t2 s2).1 = (upsertLayer db nm t1 s1).1 := by
  cases hf : db.layers.find? (fun l => l.name == nm) with
  | some l =>
    rw [upsertLayer_of_found db nm t1 s1 l hf]
    by_cases h0 : l.id = 0
    · rw [if_pos h0]
      rw [upsertLayer_of_found db nm t2 s2 l hf, if_pos h0]
      exact ⟨rfl, rfl⟩
    · rw [if_neg h0]
      rw [upsertLayer_of_found db nm t2 s2 l hf, if_neg h0]
      exact ⟨rfl, rfl⟩
  | none =>
    have hnew : ((db.layers ++ [Layer.mk db.nextId nm (pyOrStr t1 nm) s1]).find?
        (fun l => l.name == nm)) = some (Layer.mk db.nextId nm (pyOrStr t1 nm) s1) := by
      apply find?_append_single_of_none _ _ _ hf
      simp
    rw [upsertLayer_of_none db nm t1 s1 hf]
    by_cases h0 : db.nextId = 0
    · rw [if_pos h0]
      rw [upsertLayer_of_found _ nm t2 s2 _ hnew, if_pos h0]
      exact ⟨rfl, rfl⟩
    · rw [if_neg h0]
      rw [upsertLayer_of_found _ nm t2 s2 _ hnew, if_neg h0]
      exact ⟨rfl, rfl⟩

/-- C4 counterexample: starting from an empty registry, upserting
"Pop Density" and then "pop-density" yields two distinct layers (ids 1 and 2)
— upsert does not resolve names differing in case/separators to one layer. -/
theorem c4_counterexample :
    (upsertLayer (LayerDB.mk [] 1) "Pop Density" (some "Pop Density") 4326).2 = some 1 ∧
    (upsertLayer (upsertLayer (LayerDB.mk [] 1) "Pop Density" (some "Pop Density") 4326).1
        "pop-density" (some "pop-density") 4326).2 = some 2 ∧
    (upsertLayer (upsertLayer (LayerDB.mk [] 1) "Pop Density" (some "Pop Density") 4326).1
        "pop-density" (some "pop-density") 4326).2 ≠
      (upsertLayer (LayerDB.mk [] 1) "Pop Density" (some "Pop Density") 4326).2 ∧
    (upsertLayer (upsertLayer (LayerDB.mk [] 1) "Pop Density" (some "Pop Density") 4326).1
        "pop-density" (some "pop-density") 4326).1.layers.length = 2 := by
  refine ⟨rfl, rfl, ?_, rfl⟩
  decide

/-- C4 (amended): upsert matches layers by exact name only — whenever no
layer bears exactly the requested name (even if an existing layer's name
differs only in case or separators), a fresh layer is created; the
case/separator-tolerant matching lives only in the read-side GeoJSON lookup,
and even its slug normalization does not identify "Pop Density" with
"pop-density", because lowercasing happens after the non-alphanumeric
replacement. -/
theorem c4_exact_name_upsert (db : LayerDB) (nm : String) (t : Option String) (srid : Int)
    (hnone : db.layers.find? (fun l => l.name == nm) = none)
    (hid : 0 < db.nextId) :
    (upsertLayer db nm t srid).2 = some db.nextId ∧
    (upsertLayer db nm t srid).1.layers.length = db.layers.length + 1 ∧
    pgSlug "Pop Density" = "_op_ensity" ∧
    pgSlug "pop-density" = "pop_density" ∧
    pgSlug "Pop Density" ≠ pgSlug "pop-density" := by
  have h0 : ¬ db.nextId = 0 := by omega
  rw [upsertLayer_of_none db nm t srid hnone, if_neg h0]
  refine ⟨rfl, by simp, by decide, by decide, by decide⟩

/-- C4 witness for the amended statement: a registry already holding
"Pop Density" still gets a second, fresh layer when "pop-density" is
upserted. -/
theorem c4_witness :
    (upsertLayer (LayerDB.mk [Layer.mk 1 "Pop Density" "Pop Density" 4326] 2)
        "pop-density" (some "pop-density") 4326).2 = some 2 ∧
    (upsertLayer (LayerDB.mk [Layer.mk 1 "Pop Density" "Pop Density" 4326] 2)
        "pop-density" (some "pop-density") 4326).1.layers.length = 2 := by
  have h := c4_exact_name_upsert (LayerDB.mk [Layer.mk 1 "Pop Density" "Pop Density" 4326] 2)
    "pop-density" (some "pop-density") 4326 (by decide) (by decide)
  exact ⟨h.1, h.2.1⟩

/-! ## Job tracker (`import_jobs` row and `_update_job`) -/

/-- The fields of an `import_jobs` row that `_background_import` touches.
`total` is nullable with no default (NULL until first written); `processed`
and `errors` default to 0; `message` is NULL until first written.
`updated_at` is refreshed on every update and is not modelled. -/
structure JobRecord where
  status : String
  total : Option Nat
  processed : Nat
  errors : Nat
  message : Option String

/-- One `_update_job` call: each keyword argument is optional and only the
supplied fields are written. -/
structure Update where
  statusVal : Option String
  processed : Option Nat
  total : Option Nat
  errors : Option Nat
  message : Option String

/-- Applying one `_update_job` call to the job row (partial SQL UPDATE). -/
def applyUpdate (j : JobRecord) (u : Update) : JobRecord :=
  JobRecord.mk
    (match u.statusVal with | some s => s | none => j.status)
    (match u.total with | some t => some t | none => j.total)
    (match u.processed with | some p => p | none => j.processed)
    (match u.errors with | some e => e | none => j.errors)
    (match u.message with | some m => some m | none => j.message)

/-- Applying a sequence of `_update_job` calls in order. -/
def applyUpdates (j : JobRecord) (us : List Update) : JobRecord :=
  us.foldl applyUpdate j

/-- The job row as created by `import_geojson` (`status='queued'`, column
defaults for the rest). -/
def initialJob : JobRecord :=
  JobRecord.mk "queued" none 0 0 none

/-- `_update_job(status_val="processing")`. -/
def procUpd : Update := Update.mk (some "processing") none none none none

/-- `_update_job(total=total)`. -/
def totalUpd (t : Nat) : Update := Update.mk none none (some t) none none

/-- `_update_job(status_val="failed", message=str(e))`. -/
def failedUpd (msg : String) : Update := Update.mk (some "failed") none none none (some msg)

/-- `_update_job(status_val="completed", message=final_msg)`. -/
def completedUpd (msg : String) : Update :=
  Update.mk (some "completed") none none none (some msg)

/-- The message written after a successful batch flush. -/
def successMsg (p t e : Nat) : String :=
  s!"Inserted {p}/{t}. Errors: {e}"

/-- The `_update_job(processed=..., errors=..., message=...)` call after a
successful batch flush. -/
def successFlushUpd (p t e : Nat) : Update :=
  Update.mk none (some p) none (some e) (some (successMsg p t e))

/-- The `_update_job(processed=..., errors=..., message=...)` call after a
fallback flush. -/
def fallbackUpd (p e : Nat) (msg : String) : Update :=
  Update.mk none (some p) none (some e) (some msg)

/-- The sequence of `status` values written by a list of updates. -/
def statusWrites (us : List Update) : List String :=
  us.filterMap (fun u => u.statusVal)

/-- Rank of a job status in the lifecycle order
`queued → processing → {completed|failed}`. -/
def statusRank (s : String) : Nat :=
  if s = "queued" then 0 else if s = "processing" then 1 else 2

/-! ## Ingestion pipeline (`_background_import` and the two inserters) -/

/-- One element of the in-memory `batch` list: the
`{"geom": json.dumps(geom), "props": json.dumps(props)}` dict.  The
`json.dumps` serialization is injective on parsed values and is elided. -/
structure Row where
  geom : Json
  props : Json

/-- Ambient facts about the run that live outside the Python source:
which geometries PostGIS accepts for a row insert (constant per job, as the
layer id and srid are), the two environment variables, and the `str(e)`
rendering of database exceptions. -/
structure Env where
  insertable : Json → Bool
  batchSize : Nat
  sampleLimit : Nat
  batchErrMsg : List Row → String
  rowErrMsg : Row → String

/-- `_flush_batch`: one atomic multi-row INSERT; it succeeds exactly when
every row's geometry is insertable, otherwise the whole statement raises and
nothing is persisted. -/
def flushBatch (ins : Json → Bool) (batch : List Row) : Bool :=
  batch.all (fun r => ins r.geom)

/-- `_flush_batch_individual`: per-row insert inside try/except, skipping
rows whose insert raises; returns the number of rows persisted, the rows
themselves, and the sample list as mutated by `on_error`.  The every-20-rows
commit and the trailing commit only delimit transactions and are elided. -/
def flushBatchIndividual (ins : Json → Bool) (onErr : Row → List String → List String) :
    List Row → List String → Nat × List Row × List String
  | [], samples => (0, [], samples)
  | item :: rest, samples =>
    if ins item.geom then
      let r := flushBatchIndividual ins onErr rest samples
      (r.1 + 1, item :: r.2.1, r.2.2)
    else
      flushBatchIndividual ins onErr rest (onErr item samples)

/-- The `on_error` lambda passed by `_background_import`: append a
`"row error: ..."` sample while under the cap. -/
def onRowError (env : Env) (item : Row) (samples : List String) : List String :=
  if samples.length < env.sampleLimit
  then samples ++ ["row error: " ++ env.rowErrMsg item]
  else samples

/-- The in-memory state of the feature loop of `_background_import`:
the local variables `processed`, `errors`, `error_samples`, `batch`, plus
the committed effects so far (`_update_job` calls, persisted feature rows)
and the ghost trace of flush sizes. -/
structure PipeState where
  processed : Nat
  errors : Nat
  samples : List String
  batch : List Row
  updates : List Update
  inserted : List Row
  flushes : List Nat

/-- One flush of the current batch: the try/except block of
`_background_import` around `_flush_batch`, identical at the in-loop and
final-batch call sites except for the fallback-message label and the
`.strip()` applied only in the loop. -/
def flushStep (env : Env) (total : Nat) (fbLabel : String) (doTrim : Bool)
    (st : PipeState) : PipeState :=
  if flushBatch env.insertable st.batch then
    let processed := st.processed + st.batch.length
    PipeState.mk processed st.errors st.samples []
      (st.updates ++ [successFlushUpd processed total st.errors])
      (st.inserted ++ st.batch)
      (st.flushes ++ [st.batch.length])
  else
    let samples1 :=
      if st.samples.length < env.sampleLimit
      then st.samples ++ ["batch error: " ++ env.batchErrMsg st.batch]
      else st.samples
    let res := flushBatchIndividual env.insertable (onRowError env) st.batch samples1
    let okCount := res.1
    let okRows := res.2.1
    let samples2 := res.2.2
    let processed := st.processed + st.batch.length
    let errors := st.errors + (st.batch.length - okCount)
    let blen := st.batch.length
    let rawMsg :=
      fbLabel ++ s!"{okCount}/{blen} inserted. Errors: {errors}. "
        ++ (if samples2.isEmpty then "" else "Samples: " ++ String.intercalate "; " samples2)
    let msg := if doTrim then rawMsg.trim else rawMsg
    PipeState.mk processed errors samples2 []
      (st.updates ++ [fallbackUpd processed errors msg])
      (st.inserted ++ okRows)
      (st.flushes ++ [st.batch.length])

/-- The `for feat in features` loop of `_background_import`.  Returns the
state reached and `some e` when an exception escaped the loop body (a
non-dict feature), in which case the effects committed so far stand. -/
def processFeatures (env : Env) (total : Nat) :
    List Json → PipeState → PipeState × Option String
  | [], st => (st, none)
  | feat :: rest, st =>
    match pyGet feat "geometry" with
    | Except.error e => (st, some e)
    | Except.ok geom =>
      match pyGet feat "properties" with
      | Except.error e => (st, some e)
      | Except.ok propsRaw =>
        let props := pyOr propsRaw (Json.obj [])
        if pyFalsy geom then
          processFeatures env total rest { st with errors := st.errors + 1 }
        else
          let st1 := { st with batch := st.batch ++ [Row.mk geom props] }
          if env.batchSize ≤ st1.batch.length then
            processFeatures env total rest (flushStep env total "Batch fallback: " true st1)
          else
            processFeatures env total rest st1

/-- The observable outcome of the try/except body of `_background_import`. -/
structure BodyResult where
  updates : List Update
  inserted : List Row
  flushes : List Nat
  layers : LayerDB
  finalProcessed : Nat
  finalErrors : Nat

/-- The loop state right before the `for feat in features` loop: counters at
0, empty batch, and the `processing` and `total` updates already committed. -/
def startState (total : Nat) : PipeState :=
  PipeState.mk 0 0 [] [] [procUpd, totalUpd total] [] []

/-- The `if batch:` step after the loop: flush any remaining partial batch. -/
def finalState (env : Env) (total : Nat) (st : PipeState) : PipeState :=
  if st.batch.isEmpty then st
  else flushStep env total "Final batch fallback: " false st

/-- The final summary message of a completed run. -/
def completedMsg (total : Nat) (st2 : PipeState) : String :=
  let p := st2.processed
  let e := st2.errors
  s!"Completed. Inserted {p}/{total}. Errors: {e}. "
    ++ (if st2.samples.isEmpty then ""
        else "Samples: " ++ String.intercalate "; " st2.samples)

/-- The try/except part of `_background_import`: everything up to (but not
including) the `finally` cleanup.  `parseResult` is the outcome of
`json.load` on the temp file.  Any escaped exception ends in the
`_update_job(status_val="failed", message=str(e))` of the except clause. -/
def importBody (env : Env) (parseResult : Except String Json) (ldb : LayerDB)
    (layerName : String) (srid : Int) : BodyResult :=
  match parseResult with
  | Except.error e => BodyResult.mk [procUpd, failedUpd e] [] [] ldb 0 0
  | Except.ok data =>
    match pyGet data "features" with
    | Except.error e => BodyResult.mk [procUpd, failedUpd e] [] [] ldb 0 0
    | Except.ok featuresRaw =>
      let features := pyOr featuresRaw (Json.arr [])
      match pyElems features with
      | Except.error e => BodyResult.mk [procUpd, failedUpd e] [] [] ldb 0 0
      | Except.ok feats =>
        let total := feats.length
        let up := upsertLayer ldb layerName (some layerName) srid
        match up.2 with
        | none =>
          BodyResult.mk [procUpd, totalUpd total, failedUpd "Failed to upsert layer"]
            [] [] up.1 0 0
        | some _lid =>
          let res := processFeatures env total feats (startState total)
          match res.2 with
          | some e =>
            BodyResult.mk (res.1.updates ++ [failedUpd e]) res.1.inserted res.1.flushes up.1
              res.1.processed res.1.errors
          | none =>
            let st2 := finalState env total res.1
            BodyResult.mk (st2.updates ++ [completedUpd (completedMsg total st2)])
              st2.inserted st2.flushes up.1 st2.processed st2.errors

/-- Full outcome of one `_background_import` run, including the `finally`
cleanup: `removeCalls` counts `os.remove(tmp_path)` attempts, `tmpRemoved`
whether the temp artifact is actually gone (removal may itself fail, which
the bare `except: pass` swallows). -/
structure RunResult where
  updates : List Update
  inserted : List Row
  flushes : List Nat
  layers : LayerDB
  finalProcessed : Nat
  finalErrors : Nat
  removeCalls : Nat
  tmpRemoved : Bool

/-- `_background_import`: the try/except body followed unconditionally by
the single `finally: os.remove(tmp_path)` attempt; `removeOk` says whether
that removal succeeds. -/
def backgroundImport (env : Env) (parseResult : Except String Json) (ldb : LayerDB)
    (layerName : String) (srid : Int) (removeOk : Bool) : RunResult :=
  let b := importBody env parseResult ldb layerName srid
  RunResult.mk b.updates b.inserted b.flushes b.layers b.finalProcessed b.finalErrors 1 removeOk

/-- The `import_jobs` row after a run: the initial `queued` row with every
committed `_update_job` applied in order. -/
def runJob (r : RunResult) : JobRecord :=
  applyUpdates initialJob r.updates

/-- A feature the pipeline ingests without error: a dict whose `geometry`
is truthy and insertable. -/
def validFeature (ins : Json → Bool) : Json → Bool
  | Json.obj kvs =>
    let g := (lookupKey kvs "geometry").getD Json.null
    !pyFalsy g && ins g
  | _ => false

/-- A dict feature whose `geometry` is falsy (absent, null, or empty). -/
def featMissingGeom : Json → Bool
  | Json.obj kvs => pyFalsy ((lookupKey kvs "geometry").getD Json.null)
  | _ => false

/-- A dict feature that is either skipped for missing geometry or ingested
cleanly — the only error source is the missing geometry. -/
def tameFeature (ins : Json → Bool) : Json → Bool
  | Json.obj kvs =>
    let g := (lookupKey kvs "geometry").getD Json.null
    pyFalsy g || ins g
  | _ => false

end GeoImport

namespace GeoImport

/-- A benign environment: every geometry insertable, default batch size 50
and sample cap 5 (the env-var defaults), fixed exception renderings. -/
def envD : Env := Env.mk (fun _ => true) 50 5 (fun _ => "batch exception") (fun _ => "row exception")

/-- An empty layer table with the SERIAL sequence at 1. -/
def ldb0 : LayerDB := LayerDB.mk [] 1

/-! ## Basic lemmas about job updates -/

theorem applyUpdates_concat (j : JobRecord) (us : List Update) (u : Update) :
    applyUpdates j (us ++ [u]) = applyUpdate (applyUpdates j us) u := by
  simp [applyUpdates, List.foldl_append]

theorem applyUpdate_successFlush (j : JobRecord) (p t e : Nat) :
    applyUpdate j (successFlushUpd p t e)
      = JobRecord.mk j.status j.total p e (some (successMsg p t e)) := rfl

theorem applyUpdate_fallback (j : JobRecord) (p e : Nat) (m : String) :
    applyUpdate j (fallbackUpd p e m) = JobRecord.mk j.status j.total p e (some m) := rfl

theorem applyUpdate_completed (j : JobRecord) (m : String) :
    applyUpdate j (completedUpd m)
      = JobRecord.mk "completed" j.total j.processed j.errors (some m) := rfl

theorem applyUpdate_failed (j : JobRecord) (m : String) :
    applyUpdate j (failedUpd m)
      = JobRecord.mk "failed" j.total j.processed j.errors (some m) := rfl

theorem successFlush_absorb (j : JobRecord) (p1 t1 e1 p2 t2 e2 : Nat) :
    applyUpdate (applyUpdate j (successFlushUpd p1 t1 e1)) (successFlushUpd p2 t2 e2)
      = applyUpdate j (successFlushUpd p2 t2 e2) := rfl

/-! ## Lemmas about the row fallback inserter -/

/-- `_flush_batch_individual` attempts every row, persists exactly the
insertable ones in order, and returns their count. -/
theorem flushBatchIndividual_spec (ins : Json → Bool)
    (onErr : Row → List String → List String) :
    ∀ (batch : List Row) (samples : List String),
      (flushBatchIndividual ins onErr batch samples).1
          = (batch.filter (fun r => ins r.geom)).length ∧
      (flushBatchIndividual ins onErr batch samples).2.1
          = batch.filter (fun r => ins r.geom) := by
  intro batch
  induction batch with
  | nil => intro samples; exact ⟨rfl, rfl⟩
  | cons item rest ih =>
    intro samples
    cases hi : ins item.geom with
    | true =>
      have h := ih samples
      simp [flushBatchIndividual, hi, List.filter_cons, h.1, h.2]
    | false =>
      have h := ih (onErr item samples)
      simp [flushBatchIndividual, hi, List.filter_cons, h.1, h.2]

theorem flushBatchIndividual_count (ins : Json → Bool)
    (onErr : Row → List String → List String) (batch : List Row) (samples : List String) :
    (flushBatchIndividual ins onErr batch samples).1
      = (batch.filter (fun r => ins r.geom)).length :=
  (flushBatchIndividual_spec ins onErr batch samples).1

theorem flushBatchIndividual_rows (ins : Json → Bool)
    (onErr : Row → List String → List String) (batch : List Row) (samples : List String) :
    (flushBatchIndividual ins onErr batch samples).2.1
      = batch.filter (fun r => ins r.geom) :=
  (flushBatchIndividual_spec ins onErr batch samples).2

/-- Shape of a successful flush (the `try` arm). -/
theorem flushStep_success (env : Env) (total : Nat) (lbl : String) (dt : Bool)
    (st : PipeState) (h : flushBatch env.insertable st.batch = true) :
    flushStep env total lbl dt st =
      PipeState.mk (st.processed + st.batch.length) st.errors st.samples []
        (st.updates ++ [successFlushUpd (st.processed + st.batch.length) total st.errors])
        (st.inserted ++ st.batch)
        (st.flushes ++ [st.batch.length]) := by
  simp [flushStep, h]

theorem flushStep_statusWrites (env : Env) (total : Nat) (lbl : String) (dt : Bool)
    (st : PipeState) :
    statusWrites (flushStep env total lbl dt st).updates = statusWrites st.updates := by
  unfold flushStep
  split
  · simp [statusWrites, List.filterMap_append, successFlushUpd]
  · simp [statusWrites, List.filterMap_append, fallbackUpd]

theorem processFeatures_statusWrites (env : Env) (total : Nat) :
    ∀ (feats : List Json) (st : PipeState),
      statusWrites (processFeatures env total feats st).1.updates
        = statusWrites st.updates := by
  intro feats
  induction feats with
  | nil => intro st; rfl
  | cons f fs ih =>
    intro st
    cases f with
    | obj kvs =>
      simp only [processFeatures, pyGet]
      cases hg : pyFalsy ((lookupKey kvs "geometry").getD Json.null) with
      | true => simp only [hg, if_true]; exact ih _
      | false =>
        simp only [hg, Bool.false_eq_true, if_false]
        split
        · exact (ih _).trans (flushStep_statusWrites _ _ _ _ _)
        · exact ih _
    | null => rfl
    | bool b => rfl
    | num n => rfl
    | str s => rfl
    | arr xs => rfl

theorem flushStep_batch (env : Env) (total : Nat) (lbl : String) (dt : Bool)
    (st : PipeState) : (flushStep env total lbl dt st).batch = [] := by
  unfold flushStep
  split <;> rfl

theorem flushStep_inserted (env : Env) (total : Nat) (lbl : String) (dt : Bool)
    (st : PipeState) :
    (flushStep env total lbl dt st).inserted
      = st.inserted ++ (if flushBatch env.insertable st.batch
                        then st.batch
                        else st.batch.filter (fun r => env.insertable r.geom)) := by
  unfold flushStep
  split
  · rfl
  · simp [flushBatchIndividual_rows]

/-- C3: when the bulk flush of a batch raises, the row fallback attempts each
of the batch's rows individually, persists exactly the insertable ones (a
failing row is skipped without aborting the rest), returns the count of rows
actually persisted, and the job's errors counter grows by exactly the batch
length minus that count. -/
theorem c3_row_fallback (env : Env) (total : Nat) (lbl : String) (dt : Bool)
    (st : PipeState) (h : flushBatch env.insertable st.batch = false) :
    (flushBatchIndividual env.insertable (onRowError env) st.batch st.samples).1
        = (st.batch.filter (fun r => env.insertable r.geom)).length ∧
    (flushBatchIndividual env.insertable (onRowError env) st.batch st.samples).2.1
        = st.batch.filter (fun r => env.insertable r.geom) ∧
    (flushStep env total lbl dt st).errors
        = st.errors
            + (st.batch.length - (st.batch.filter (fun r => env.insertable r.geom)).length) ∧
    (flushStep env total lbl dt st).inserted
        = st.inserted ++ st.batch.filter (fun r => env.insertable r.geom) := by
  refine ⟨flushBatchIndividual_count _ _ _ _, flushBatchIndividual_rows _ _ _ _, ?_, ?_⟩
  · simp [flushStep, h, flushBatchIndividual_count]
  · rw [flushStep_inserted, if_neg]
    rw [h]
    exact Bool.false_ne_true

/-- C3 witness: a 50-row batch with exactly two uninsertable geometries
(rows 7 and 13): the bulk flush fails, the fallback persists 48 rows and the
errors counter grows by 2. -/
def envBad : Env :=
  Env.mk
    (fun g => match g with
      | Json.num k => !(k == 7 || k == 13)
      | _ => true)
    50 5 (fun _ => "batch exception") (fun _ => "row exception")

/-- The 50-row batch used by the C3 witness. -/
def batch50 : List Row :=
  (List.range 50).map (fun i => Row.mk (Json.num (Int.ofNat i)) (Json.obj []))

/-- The pipeline state holding `batch50` used by the C3 witness. -/
def stBatch50 : PipeState := PipeState.mk 0 0 [] batch50 [] [] []

theorem c3_witness :
    flushBatch envBad.insertable stBatch50.batch = false ∧
    (flushBatchIndividual envBad.insertable (onRowError envBad)
        stBatch50.batch stBatch50.samples).1 = 48 ∧
    (flushStep envBad 50 "Batch fallback: " true stBatch50).errors = 2 := by
  have hfail : flushBatch envBad.insertable stBatch50.batch = false := by decide
  have h := c3_row_fallback envBad 50 "Batch fallback: " true stBatch50 hfail
  refine ⟨hfail, h.1.trans (by decide), (h.2.2.1).trans (by decide)⟩

/-! ## Shape of a full run -/

/-- Every run's update trace is a `"processing"` write (with possibly a
total write around it) followed by exactly one terminal write, which is a
`failed` or a `completed` update. -/
theorem importBody_shape (env : Env) (pr : Except String Json) (ldb : LayerDB)
    (nm : String) (srid : Int) :
    ∃ us m, statusWrites us = ["processing"] ∧
      ((importBody env pr ldb nm srid).updates = us ++ [failedUpd m] ∨
       (importBody env pr ldb nm srid).updates = us ++ [completedUpd m]) := by
  cases pr with
  | error e => exact ⟨[procUpd], e, rfl, Or.inl rfl⟩
  | ok data =>
    cases hg : pyGet data "features" with
    | error e =>
      refine ⟨[procUpd], e, rfl, Or.inl ?_⟩
      simp only [importBody, hg]
      rfl
    | ok featuresRaw =>
      cases he : pyElems (pyOr featuresRaw (Json.arr [])) with
      | error e =>
        refine ⟨[procUpd], e, rfl, Or.inl ?_⟩
        simp only [importBody, hg, he]
        rfl
      | ok feats =>
        cases hu : (upsertLayer ldb nm (some nm) srid).2 with
        | none =>
          refine ⟨[procUpd, totalUpd feats.length], "Failed to upsert layer", rfl, Or.inl ?_⟩
          simp only [importBody, hg, he, hu]
          rfl
        | some lid =>
          cases hr : (processFeatures env feats.length feats (startState feats.length)).2 with
          | some e =>
            refine ⟨(processFeatures env feats.length feats (startState feats.length)).1.updates,
              e, ?_, Or.inl ?_⟩
            · rw [processFeatures_statusWrites]
              rfl
            · simp only [importBody, hg, he, hu, hr]
          | none =>
            refine ⟨(finalState env feats.length
                (processFeatures env feats.length feats (startState feats.length)).1).updates,
              completedMsg feats.length (finalState env feats.length
                (processFeatures env feats.length feats (startState feats.length)).1),
              ?_, Or.inr ?_⟩
            · unfold finalState
              split
              · rw [processFeatures_statusWrites]
                rfl
              · rw [flushStep_statusWrites, processFeatures_statusWrites]
                rfl
            · simp only [importBody, hg, he, hu, hr]

theorem getLast?_append_single {α} (l : List α) (a : α) :
    (l ++ [a]).getLast? = some a :=
  List.getLast?_concat l

theorem dropLast_append_single {α} (l : List α) (a : α) :
    (l ++ [a]).dropLast = l :=
  List.dropLast_concat

/-! ## Claims about every run -/

/-- C6: the job's status writes are monotone along
`queued → processing → {completed | failed}`: counting the `queued` written
at job creation, every run writes exactly the sequence
`queued, processing, completed` or `queued, processing, failed`, which is
strictly increasing in lifecycle rank — no job ever regresses. -/
theorem c6_status_monotone (env : Env) (pr : Except String Json) (ldb : LayerDB)
    (nm : String) (srid : Int) (rok : Bool) :
    (("queued" :: statusWrites (backgroundImport env pr ldb nm srid rok).updates)
        = ["queued", "processing", "completed"] ∨
     ("queued" :: statusWrites (backgroundImport env pr ldb nm srid rok).updates)
        = ["queued", "processing", "failed"]) ∧
    List.Pairwise (fun a b => statusRank a < statusRank b)
      ("queued" :: statusWrites (backgroundImport env pr ldb nm srid rok).updates) := by
  obtain ⟨us, m, hsw, hcase⟩ := importBody_shape env pr ldb nm srid
  have hupd : (backgroundImport env pr ldb nm srid rok).updates
      = (importBody env pr ldb nm srid).updates := rfl
  cases hcase with
  | inl h =>
    have hws : statusWrites (backgroundImport env pr ldb nm srid rok).updates
        = ["processing", "failed"] := by
      rw [hupd, h]
      simp only [statusWrites, List.filterMap_append] at hsw ⊢
      rw [hsw]
      rfl
    rw [hws]
    exact ⟨Or.inr rfl, by decide⟩
  | inr h =>
    have hws : statusWrites (backgroundImport env pr ldb nm srid rok).updates
        = ["processing", "completed"] := by
      rw [hupd, h]
      simp only [statusWrites, List.filterMap_append] at hsw ⊢
      rw [hsw]
      rfl
    rw [hws]
    exact ⟨Or.inl rfl, by decide⟩

/-- C9: the temp upload artifact is released exactly once on every exit path
(`os.remove` sits in the `finally` block): every run attempts the removal
exactly once, the artifact is absent afterwards exactly when the removal
succeeded, and the removal outcome never changes the job updates, the job
record, or the persisted features (`except: pass`). -/
theorem c9_temp_release (env : Env) (pr : Except String Json) (ldb : LayerDB)
    (nm : String) (srid : Int) (rok : Bool) :
    (backgroundImport env pr ldb nm srid rok).removeCalls = 1 ∧
    (backgroundImport env pr ldb nm srid rok).tmpRemoved = rok ∧
    ∀ rok2 : Bool,
      (backgroundImport env pr ldb nm srid rok2).updates
          = (backgroundImport env pr ldb nm srid rok).updates ∧
      runJob (backgroundImport env pr ldb nm srid rok2)
          = runJob (backgroundImport env pr ldb nm srid rok) ∧
      (backgroundImport env pr ldb nm srid rok2).inserted
          = (backgroundImport env pr ldb nm srid rok).inserted :=
  ⟨rfl, rfl, fun _ => ⟨rfl, rfl, rfl⟩⟩

/-- C2 (amended): an upload whose payload is unreadable or does not parse to
a JSON object transitions directly to `failed` with the exception text as
message; nothing is ingested and `processed`/`errors` stay 0 while `total`
stays at its initial value, which is NULL (unset), not 0.  (A payload that
parses to a JSON object is treated as a feature collection even without a
`features` member — see the counterexample.) -/
theorem c2_structural_failure (env : Env) (ldb : LayerDB) (nm : String) (srid : Int)
    (rok : Bool) (pr : Except String Json)
    (h : ∀ j, pr = Except.ok j → isObj j = false) :
    (runJob (backgroundImport env pr ldb nm srid rok)).status = "failed" ∧
    (runJob (backgroundImport env pr ldb nm srid rok)).processed = 0 ∧
    (runJob (backgroundImport env pr ldb nm srid rok)).errors = 0 ∧
    (runJob (backgroundImport env pr ldb nm srid rok)).total = none ∧
    (backgroundImport env pr ldb nm srid rok).inserted = [] ∧
    (backgroundImport env pr ldb nm srid rok).flushes = [] ∧
    (∃ m, (runJob (backgroundImport env pr ldb nm srid rok)).message = some m) ∧
    (∀ e, pr = Except.error e →
      (runJob (backgroundImport env pr ldb nm srid rok)).message = some e) := by
  cases pr with
  | error e =>
    exact ⟨rfl, rfl, rfl, rfl, rfl, rfl, ⟨e, rfl⟩, fun e2 he => by cases he; rfl⟩
  | ok j =>
    have hj : isObj j = false := h j rfl
    cases j with
    | obj kvs => simp [isObj] at hj
    | null => exact ⟨rfl, rfl, rfl, rfl, rfl, rfl, ⟨_, rfl⟩, fun e2 he => Except.noConfusion he⟩
    | bool b => exact ⟨rfl, rfl, rfl, rfl, rfl, rfl, ⟨_, rfl⟩, fun e2 he => Except.noConfusion he⟩
    | num n => exact ⟨rfl, rfl, rfl, rfl, rfl, rfl, ⟨_, rfl⟩, fun e2 he => Except.noConfusion he⟩
    | str s => exact ⟨rfl, rfl, rfl, rfl, rfl, rfl, ⟨_, rfl⟩, fun e2 he => Except.noConfusion he⟩
    | arr xs => exact ⟨rfl, rfl, rfl, rfl, rfl, rfl, ⟨_, rfl⟩, fun e2 he => Except.noConfusion he⟩

/-- C2 counterexample: a payload that parses to a JSON object with no
`features` member is not a feature collection, yet the job runs to
`completed` (it is treated as an empty collection) instead of transitioning
to `failed` as the claim states; moreover, on an unreadable payload the
`total` column stays at its NULL default rather than at 0. -/
theorem c2_counterexample :
    (runJob (backgroundImport envD (Except.ok (Json.obj [("foo", Json.num 1)]))
        ldb0 "l" 4326 true)).status = "completed" ∧
    (runJob (backgroundImport envD (Except.ok (Json.obj [("foo", Json.num 1)]))
        ldb0 "l" 4326 true)).status ≠ "failed" ∧
    (runJob (backgroundImport envD (Except.error "boom") ldb0 "l" 4326 true)).total = none ∧
    (runJob (backgroundImport envD (Except.error "boom") ldb0 "l" 4326 true)).total
      ≠ some 0 := by
  exact ⟨rfl, by decide, rfl, by decide⟩

theorem c2_witness :
    (runJob (backgroundImport envD
        (Except.error "Expecting value: line 1 column 1 (char 0)")
        ldb0 "l" 4326 true)).status = "failed" ∧
    (runJob (backgroundImport envD
        (Except.error "Expecting value: line 1 column 1 (char 0)")
        ldb0 "l" 4326 true)).total = none ∧
    (runJob (backgroundImport envD
        (Except.error "Expecting value: line 1 column 1 (char 0)")
        ldb0 "l" 4326 true)).message
      = some "Expecting value: line 1 column 1 (char 0)" := by
  have h := c2_structural_failure envD ldb0 "l" 4326 true
    (Except.error "Expecting value: line 1 column 1 (char 0)")
    (fun j hj => Except.noConfusion hj)
  exact ⟨h.1, h.2.2.2.1, h.2.2.2.2.2.2.2 _ rfl⟩

/-- C10: the terminal update of every run (completed or failed) writes only
status and message — its processed/errors/total fields are unset, so the job
row keeps the processed and errors written by the last batch flush.  In
particular, for a one-feature collection whose feature lacks geometry the
run completes with the errors column still 0 while the in-memory errors
counter is 1 and the final message reports "Errors: 1". -/
theorem c10_terminal_frame :
    (∀ (env : Env) (pr : Except String Json) (ldb : LayerDB) (nm : String)
        (srid : Int) (rok : Bool),
      ∃ u, (backgroundImport env pr ldb nm srid rok).updates.getLast? = some u ∧
        u.processed = none ∧ u.errors = none ∧ u.total = none ∧
        (runJob (backgroundImport env pr ldb nm srid rok)).processed
          = (applyUpdates initialJob
              (backgroundImport env pr ldb nm srid rok).updates.dropLast).processed ∧
        (runJob (backgroundImport env pr ldb nm srid rok)).errors
          = (applyUpdates initialJob
              (backgroundImport env pr ldb nm srid rok).updates.dropLast).errors) ∧
    ((runJob (backgroundImport envD
        (Except.ok (Json.obj [("features", Json.arr [Json.obj []])]))
        ldb0 "l" 4326 true)).status = "completed" ∧
     (runJob (backgroundImport envD
        (Except.ok (Json.obj [("features", Json.arr [Json.obj []])]))
        ldb0 "l" 4326 true)).errors = 0 ∧
     (backgroundImport envD
        (Except.ok (Json.obj [("features", Json.arr [Json.obj []])]))
        ldb0 "l" 4326 true).finalErrors = 1 ∧
     (runJob (backgroundImport envD
        (Except.ok (Json.obj [("features", Json.arr [Json.obj []])]))
        ldb0 "l" 4326 true)).message = some "Completed. Inserted 0/1. Errors: 1. ") := by
  constructor
  · intro env pr ldb nm srid rok
    obtain ⟨us, m, hsw, hcase⟩ := importBody_shape env pr ldb nm srid
    have hupd : (backgroundImport env pr ldb nm srid rok).updates
        = (importBody env pr ldb nm srid).updates := rfl
    cases hcase with
    | inl h =>
      refine ⟨failedUpd m, ?_, rfl, rfl, rfl, ?_, ?_⟩
      · rw [hupd, h, getLast?_append_single]
      · simp only [runJob]
        rw [hupd, h, applyUpdates_concat, dropLast_append_single, applyUpdate_failed]
      · simp only [runJob]
        rw [hupd, h, applyUpdates_concat, dropLast_append_single, applyUpdate_failed]
    | inr h =>
      refine ⟨completedUpd m, ?_, rfl, rfl, rfl, ?_, ?_⟩
      · rw [hupd, h, getLast?_append_single]
      · simp only [runJob]
        rw [hupd, h, applyUpdates_concat, dropLast_append_single, applyUpdate_completed]
      · simp only [runJob]
        rw [hupd, h, applyUpdates_concat, dropLast_append_single, applyUpdate_completed]
  · exact ⟨rfl, rfl, rfl, rfl⟩

/-! ## The feature loop on cleanly-ingestible features -/

/-- Behaviour of the `for feat in features` loop when every feature is a
dict with a truthy, insertable geometry: no exception escapes, errors and
samples are untouched, the batch stays insertable, counters follow batch
arithmetic, every flush is a full successful batch of `batchSize` rows, and
the committed job updates amount to the last successful flush update (if
any flush happened). -/
theorem processFeatures_valid (env : Env) (total : Nat) (hb : 0 < env.batchSize) :
    ∀ (feats : List Json) (st : PipeState),
      feats.all (validFeature env.insertable) = true →
      st.batch.all (fun r => env.insertable r.geom) = true →
      st.batch.length < env.batchSize →
      (processFeatures env total feats st).2 = none ∧
      (processFeatures env total feats st).1.errors = st.errors ∧
      (processFeatures env total feats st).1.samples = st.samples ∧
      (processFeatures env total feats st).1.batch.all (fun r => env.insertable r.geom) = true ∧
      (processFeatures env total feats st).1.batch.length
        = (st.batch.length + feats.length) % env.batchSize ∧
      (processFeatures env total feats st).1.processed
          + (processFeatures env total feats st).1.batch.length
        = st.processed + st.batch.length + feats.length ∧
      (processFeatures env total feats st).1.flushes
        = st.flushes
            ++ List.replicate ((st.batch.length + feats.length) / env.batchSize)
                env.batchSize ∧
      ∀ j : JobRecord,
        applyUpdates j (processFeatures env total feats st).1.updates
          = if (st.batch.length + feats.length) / env.batchSize = 0
            then applyUpdates j st.updates
            else applyUpdate (applyUpdates j st.updates)
                  (successFlushUpd (processFeatures env total feats st).1.processed
                    total st.errors) := by
  intro feats
  induction feats with
  | nil =>
    intro st hall hgood hlen
    have hmod : st.batch.length % env.batchSize = st.batch.length := Nat.mod_eq_of_lt hlen
    have hdiv : st.batch.length / env.batchSize = 0 := Nat.div_eq_of_lt hlen
    refine ⟨rfl, rfl, rfl, hgood, ?_, ?_, ?_, ?_⟩
    · simp only [processFeatures, List.length_nil, Nat.add_zero]
      exact hmod.symm
    · simp only [processFeatures, List.length_nil, Nat.add_zero]
    · simp only [processFeatures, List.length_nil, Nat.add_zero, hdiv, List.replicate_zero,
        List.append_nil]
    · intro j
      simp [processFeatures, hdiv]
  | cons f fs ih =>
    intro st hall hgood hlen
    rw [List.all_cons, Bool.and_eq_true] at hall
    obtain ⟨hf, hfs⟩ := hall
    cases f with
    | null => simp [validFeature] at hf
    | bool b => simp [validFeature] at hf
    | num n => simp [validFeature] at hf
    | str s => simp [validFeature] at hf
    | arr xs => simp [validFeature] at hf
    | obj kvs =>
      simp only [validFeature, Bool.and_eq_true, Bool.not_eq_true'] at hf
      obtain ⟨hfalsy, hins⟩ := hf
      simp only [processFeatures, pyGet, hfalsy, Bool.false_eq_true, if_false, List.length_cons]
      set g : Json := (lookupKey kvs "geometry").getD Json.null with hgdef
      set props : Json := pyOr ((lookupKey kvs "properties").getD Json.null) (Json.obj [])
        with hpdef
      set st1 : PipeState := PipeState.mk st.processed st.errors st.samples
        (st.batch ++ [Row.mk g props]) st.updates st.inserted st.flushes with hst1
      have hlenapp : (st.batch ++ [Row.mk g props]).length = st.batch.length + 1 := by simp
      by_cases hcond : env.batchSize ≤ (st.batch ++ [Row.mk g props]).length
      · rw [if_pos hcond]
        have hk1 : st.batch.length + 1 = env.batchSize := by
          rw [hlenapp] at hcond
          omega
        have hfl : flushBatch env.insertable st1.batch = true := by
          rw [hst1]
          simp only [flushBatch, List.all_append, hgood, Bool.true_and, List.all_cons,
            List.all_nil, Bool.and_true]
          exact hins
        rw [flushStep_success env total "Batch fallback: " true st1 hfl]
        set st2 : PipeState := PipeState.mk (st1.processed + st1.batch.length) st1.errors
          st1.samples []
          (st1.updates ++ [successFlushUpd (st1.processed + st1.batch.length) total st1.errors])
          (st1.inserted ++ st1.batch) (st1.flushes ++ [st1.batch.length]) with hst2
        have h2batch : st2.batch = [] := by rw [hst2]
        have h2errors : st2.errors = st.errors := by rw [hst2, hst1]
        have h2samples : st2.samples = st.samples := by rw [hst2, hst1]
        obtain ⟨i0, i1, i2, i3, i4, i5, i6, i7⟩ := ih st2 hfs
          (by rw [h2batch]; rfl) (by rw [h2batch]; exact hb)
        have hsum : st.batch.length + (fs.length + 1) = fs.length + env.batchSize := by omega
        have hmodm : (st.batch.length + (fs.length + 1)) % env.batchSize
            = fs.length % env.batchSize := by
          rw [hsum, Nat.add_mod_right]
        have hdivm : (st.batch.length + (fs.length + 1)) / env.batchSize
            = fs.length / env.batchSize + 1 := by
          rw [hsum, Nat.add_div_right _ hb]
        simp only [hlenapp, List.length_nil, Nat.zero_add, Nat.add_zero] at i4 i5 i6 i7
        rw [hk1] at i6
        refine ⟨i0, i1.trans h2errors, i2.trans h2samples, i3, ?_, ?_, ?_, ?_⟩
        · rw [hmodm]
          exact i4
        · exact i5.trans (by omega)
        · rw [hdivm, List.replicate_succ, i6]
          simp
        · intro j
          have hAU : applyUpdates j (st.updates
              ++ [successFlushUpd (st.processed + (st.batch.length + 1)) total st.errors])
              = applyUpdate (applyUpdates j st.updates)
                  (successFlushUpd (st.processed + (st.batch.length + 1)) total st.errors) :=
            applyUpdates_concat j st.updates _
          rw [hdivm, if_neg (Nat.succ_ne_zero _)]
          by_cases hfz : fs.length / env.batchSize = 0
          · rw [i7 j, if_pos hfz, hAU]
            have hflt : fs.length < env.batchSize := (Nat.div_eq_zero_iff hb).mp hfz
            have hmfs : fs.length % env.batchSize = fs.length := Nat.mod_eq_of_lt hflt
            rw [hmfs] at i4
            have hres : (processFeatures env total fs st2).1.processed
                = st.processed + (st.batch.length + 1) := by omega
            rw [hres]
          · rw [i7 j, if_neg hfz, hAU]
            exact successFlush_absorb _ _ _ _ _ _ _
      · rw [if_neg hcond]
        have hgood1 : st1.batch.all (fun r => env.insertable r.geom) = true := by
          rw [hst1]
          simp only [List.all_append, hgood, Bool.true_and, List.all_cons, List.all_nil,
            Bool.and_true]
          exact hins
        have hlt : st1.batch.length < env.batchSize := by
          rw [hst1]
          simp only [hlenapp]
          rw [hlenapp] at hcond
          omega
        obtain ⟨i0, i1, i2, i3, i4, i5, i6, i7⟩ := ih st1 hfs hgood1 hlt
        have hsum : st.batch.length + 1 + fs.length = st.batch.length + (fs.length + 1) := by
          omega
        simp only [hlenapp] at i4 i5 i6 i7
        rw [hsum] at i4 i6 i7
        refine ⟨i0, i1, i2, i3, i4, i5.trans (by omega), i6, i7⟩

/-- On a sane layer table (SERIAL ids, see `layerDBok`) `_upsert_layer`
always returns an id. -/
theorem upsertLayer_isSome (db : LayerDB) (nm : String) (t : Option String) (s : Int)
    (hdb : layerDBok db = true) : ∃ i, (upsertLayer db nm t s).2 = some i := by
  rw [layerDBok, Bool.and_eq_true] at hdb
  obtain ⟨hids, hnext⟩ := hdb
  cases hf : db.layers.find? (fun l => l.name == nm) with
  | some l =>
    have hl : l ∈ db.layers := List.mem_of_find?_eq_some hf
    have hid : ¬ l.id = 0 := by
      rw [List.all_eq_true] at hids
      simpa using hids l hl
    rw [upsertLayer_of_found db nm t s l hf, if_neg hid]
    exact ⟨l.id, rfl⟩
  | none =>
    have hnz : ¬ db.nextId = 0 := by simpa using hnext
    rw [upsertLayer_of_none db nm t s hf, if_neg hnz]
    exact ⟨db.nextId, rfl⟩

/-- Reduction of the try-body on a payload that is a dict with a `features`
list, once the layer upsert succeeded and the loop raised no exception. -/
theorem importBody_collection (env : Env) (ldb : LayerDB) (nm : String) (srid : Int)
    (kvs : List (String × Json)) (feats : List Json) (lid : Nat)
    (hfeat : lookupKey kvs "features" = some (Json.arr feats))
    (hup : (upsertLayer ldb nm (some nm) srid).2 = some lid)
    (hres : (processFeatures env feats.length feats (startState feats.length)).2 = none) :
    importBody env (Except.ok (Json.obj kvs)) ldb nm srid
      = BodyResult.mk
          ((finalState env feats.length
              (processFeatures env feats.length feats (startState feats.length)).1).updates
            ++ [completedUpd (completedMsg feats.length
                (finalState env feats.length
                  (processFeatures env feats.length feats (startState feats.length)).1))])
          (finalState env feats.length
            (processFeatures env feats.length feats (startState feats.length)).1).inserted
          (finalState env feats.length
            (processFeatures env feats.length feats (startState feats.length)).1).flushes
          (upsertLayer ldb nm (some nm) srid).1
          (finalState env feats.length
            (processFeatures env feats.length feats (startState feats.length)).1).processed
          (finalState env feats.length
            (processFeatures env feats.length feats (startState feats.length)).1).errors := by
  have hone : pyOr (Json.arr feats) (Json.arr []) = Json.arr feats := by
    cases feats <;> rfl
  simp only [importBody, pyGet, hfeat, Option.getD_some, hone, pyElems, hup, hres]

/-- Full-run characterization on a well-formed collection whose features all
carry truthy, insertable geometries. -/
theorem run_valid_spec (env : Env) (ldb : LayerDB) (nm : String) (srid : Int) (rok : Bool)
    (kvs : List (String × Json)) (feats : List Json)
    (hb : 0 < env.batchSize)
    (hfeat : lookupKey kvs "features" = some (Json.arr feats))
    (hall : feats.all (validFeature env.insertable) = true)
    (hdb : layerDBok ldb = true) :
    (runJob (backgroundImport env (Except.ok (Json.obj kvs)) ldb nm srid rok)).status
        = "completed" ∧
    (runJob (backgroundImport env (Except.ok (Json.obj kvs)) ldb nm srid rok)).total
        = some feats.length ∧
    (runJob (backgroundImport env (Except.ok (Json.obj kvs)) ldb nm srid rok)).processed
        = feats.length ∧
    (runJob (backgroundImport env (Except.ok (Json.obj kvs)) ldb nm srid rok)).errors = 0 ∧
    (backgroundImport env (Except.ok (Json.obj kvs)) ldb nm srid rok).finalProcessed
        = feats.length ∧
    (backgroundImport env (Except.ok (Json.obj kvs)) ldb nm srid rok).finalErrors = 0 ∧
    (backgroundImport env (Except.ok (Json.obj kvs)) ldb nm srid rok).flushes
        = List.replicate (feats.length / env.batchSize) env.batchSize
            ++ (if feats.length % env.batchSize = 0 then []
                else [feats.length % env.batchSize]) := by
  obtain ⟨lid, hup⟩ := upsertLayer_isSome ldb nm (some nm) srid hdb
  obtain ⟨m0, m1, m2, m3, m4, m5, m6, m7⟩ :=
    processFeatures_valid env feats.length hb feats (startState feats.length) hall rfl hb
  have hs1 : (startState feats.length).errors = 0 := rfl
  have hs2 : (startState feats.length).samples = [] := rfl
  have hs3 : (startState feats.length).batch.length = 0 := rfl
  have hs4 : (startState feats.length).processed = 0 := rfl
  have hs5 : (startState feats.length).flushes = [] := rfl
  have hs6 : (startState feats.length).updates = [procUpd, totalUpd feats.length] := rfl
  rw [hs1] at m1
  rw [hs2] at m2
  rw [hs3, Nat.zero_add] at m4
  rw [hs4, hs3] at m5
  simp only [Nat.zero_add] at m5
  rw [hs5, hs3, Nat.zero_add, List.nil_append] at m6
  rw [hs6, hs3, hs1] at m7
  simp only [Nat.zero_add] at m7
  have hbody := importBody_collection env ldb nm srid kvs feats lid hfeat hup m0
  have hrun : runJob (backgroundImport env (Except.ok (Json.obj kvs)) ldb nm srid rok)
      = applyUpdate
          (applyUpdates initialJob
            (finalState env feats.length
              (processFeatures env feats.length feats (startState feats.length)).1).updates)
          (completedUpd (completedMsg feats.length
            (finalState env feats.length
              (processFeatures env feats.length feats (startState feats.length)).1))) := by
    show applyUpdates initialJob (importBody env (Except.ok (Json.obj kvs)) ldb nm srid).updates
        = _
    rw [hbody]
    exact applyUpdates_concat _ _ _
  by_cases hmz : feats.length % env.batchSize = 0
  · rw [hmz] at m4
    have hbl : (processFeatures env feats.length feats (startState feats.length)).1.batch
        = [] := List.length_eq_zero.mp m4
    have hfin : finalState env feats.length
        (processFeatures env feats.length feats (startState feats.length)).1
        = (processFeatures env feats.length feats (startState feats.length)).1 := by
      rw [finalState, hbl]
      simp
    have hpn : (processFeatures env feats.length feats (startState feats.length)).1.processed
        = feats.length := by omega
    rw [hfin] at hrun
    have hJ : ((applyUpdates initialJob
          (processFeatures env feats.length feats (startState feats.length)).1.updates).total
            = some feats.length)
        ∧ ((applyUpdates initialJob
          (processFeatures env feats.length feats (startState feats.length)).1.updates).processed
            = feats.length)
        ∧ ((applyUpdates initialJob
          (processFeatures env feats.length feats (startState feats.length)).1.updates).errors
            = 0) := by
      by_cases hdz : feats.length / env.batchSize = 0
      · rw [m7 initialJob, if_pos hdz]
        have hda := Nat.div_add_mod feats.length env.batchSize
        rw [hdz, hmz] at hda
        have hn0 : feats.length = 0 := by omega
        rw [hn0]
        exact ⟨rfl, rfl, rfl⟩
      · rw [m7 initialJob, if_neg hdz, applyUpdate_successFlush]
        exact ⟨rfl, hpn, rfl⟩
    refine ⟨?_, ?_, ?_, ?_, ?_, ?_, ?_⟩
    · rw [hrun, applyUpdate_completed]
    · rw [hrun, applyUpdate_completed]
      exact hJ.1
    · rw [hrun, applyUpdate_completed]
      exact hJ.2.1
    · rw [hrun, applyUpdate_completed]
      exact hJ.2.2
    · show (importBody env (Except.ok (Json.obj kvs)) ldb nm srid).finalProcessed = _
      rw [hbody, hfin]
      exact hpn
    · show (importBody env (Except.ok (Json.obj kvs)) ldb nm srid).finalErrors = _
      rw [hbody, hfin]
      exact m1
    · show (importBody env (Except.ok (Json.obj kvs)) ldb nm srid).flushes = _
      rw [hbody, hfin, if_pos hmz, List.append_nil]
      exact m6
  · have hbne : (processFeatures env feats.length feats (startState feats.length)).1.batch.isEmpty
        = false := by
      cases hBc : (processFeatures env feats.length feats (startState feats.length)).1.batch with
      | nil =>
        exfalso
        apply hmz
        have m4c := m4
        rw [hBc] at m4c
        simpa using m4c.symm
      | cons a l => rfl
    have hfin : finalState env feats.length
        (processFeatures env feats.length feats (startState feats.length)).1
        = PipeState.mk
            ((processFeatures env feats.length feats (startState feats.length)).1.processed
              + (processFeatures env feats.length feats (startState feats.length)).1.batch.length)
            (processFeatures env feats.length feats (startState feats.length)).1.errors
            (processFeatures env feats.length feats (startState feats.length)).1.samples []
            ((processFeatures env feats.length feats (startState feats.length)).1.updates
              ++ [successFlushUpd
                  ((processFeatures env feats.length feats (startState feats.length)).1.processed
                    + (processFeatures env feats.length feats
                        (startState feats.length)).1.batch.length)
                  feats.length
                  (processFeatures env feats.length feats (startState feats.length)).1.errors])
            ((processFeatures env feats.length feats (startState feats.length)).1.inserted
              ++ (processFeatures env feats.length feats (startState feats.length)).1.batch)
            ((processFeatures env feats.length feats (startState feats.length)).1.flushes
              ++ [(processFeatures env feats.length feats
                  (startState feats.length)).1.batch.length]) := by
      rw [finalState, hbne]
      exact flushStep_success env feats.length "Final batch fallback: " false _ m3
    rw [hfin] at hrun
    have hJ : applyUpdates initialJob
        ((processFeatures env feats.length feats (startState feats.length)).1.updates
          ++ [successFlushUpd
              ((processFeatures env feats.length feats (startState feats.length)).1.processed
                + (processFeatures env feats.length feats
                    (startState feats.length)).1.batch.length)
              feats.length
              (processFeatures env feats.length feats (startState feats.length)).1.errors])
        = applyUpdate (applyUpdates initialJob [procUpd, totalUpd feats.length])
            (successFlushUpd
              ((processFeatures env feats.length feats (startState feats.length)).1.processed
                + (processFeatures env feats.length feats
                    (startState feats.length)).1.batch.length)
              feats.length
              (processFeatures env feats.length feats (startState feats.length)).1.errors) := by
      rw [applyUpdates_concat]
      by_cases hdz : feats.length / env.batchSize = 0
      · rw [m7 initialJob, if_pos hdz]
      · rw [m7 initialJob, if_neg hdz]
        exact successFlush_absorb _ _ _ _ _ _ _
    refine ⟨?_, ?_, ?_, ?_, ?_, ?_, ?_⟩
    · rw [hrun, applyUpdate_completed]
    · rw [hrun, applyUpdate_completed]
      show (applyUpdates initialJob _).total = _
      rw [hJ, applyUpdate_successFlush]
      rfl
    · rw [hrun, applyUpdate_completed]
      show (applyUpdates initialJob _).processed = _
      rw [hJ, applyUpdate_successFlush]
      exact m5
    · rw [hrun, applyUpdate_completed]
      show (applyUpdates initialJob _).errors = _
      rw [hJ, applyUpdate_successFlush]
      exact m1
    · show (importBody env (Except.ok (Json.obj kvs)) ldb nm srid).finalProcessed = _
      rw [hbody, hfin]
      exact m5
    · show (importBody env (Except.ok (Json.obj kvs)) ldb nm srid).finalErrors = _
      rw [hbody, hfin]
      exact m1
    · show (importBody env (Except.ok (Json.obj kvs)) ldb nm srid).flushes = _
      rw [hbody, hfin, if_neg hmz, m6, m4]

/-- C1: for every well-formed feature collection in which every feature has
a truthy, insertable geometry, running the pipeline to termination yields a
job record with processed + errors = total and final status completed (in
fact processed = total and errors = 0, both on the job row and in memory). -/
theorem c1_valid_collection_completes (env : Env) (ldb : LayerDB) (nm : String) (srid : Int)
    (rok : Bool) (kvs : List (String × Json)) (feats : List Json)
    (hb : 0 < env.batchSize)
    (hfeat : lookupKey kvs "features" = some (Json.arr feats))
    (hall : feats.all (validFeature env.insertable) = true)
    (hdb : layerDBok ldb = true) :
    (runJob (backgroundImport env (Except.ok (Json.obj kvs)) ldb nm srid rok)).status
        = "completed" ∧
    (runJob (backgroundImport env (Except.ok (Json.obj kvs)) ldb nm srid rok)).total
        = some feats.length ∧
    (runJob (backgroundImport env (Except.ok (Json.obj kvs)) ldb nm srid rok)).processed
        + (runJob (backgroundImport env (Except.ok (Json.obj kvs)) ldb nm srid rok)).errors
        = feats.length ∧
    (backgroundImport env (Except.ok (Json.obj kvs)) ldb nm srid rok).finalProcessed
        + (backgroundImport env (Except.ok (Json.obj kvs)) ldb nm srid rok).finalErrors
        = feats.length := by
  obtain ⟨h1, h2, h3, h4, h5, h6, h7⟩ :=
    run_valid_spec env ldb nm srid rok kvs feats hb hfeat hall hdb
  refine ⟨h1, h2, ?_, ?_⟩
  · rw [h3, h4]
    rfl
  · rw [h5, h6]
    rfl

theorem c1_witness :
    (runJob (backgroundImport envD
        (Except.ok (Json.obj [("features", Json.arr [Json.obj [("geometry", Json.num 1)],
          Json.obj [("geometry", Json.num 2)], Json.obj [("geometry", Json.num 3)]])]))
        ldb0 "l" 4326 true)).status = "completed" ∧
    (runJob (backgroundImport envD
        (Except.ok (Json.obj [("features", Json.arr [Json.obj [("geometry", Json.num 1)],
          Json.obj [("geometry", Json.num 2)], Json.obj [("geometry", Json.num 3)]])]))
        ldb0 "l" 4326 true)).total = some 3 ∧
    (runJob (backgroundImport envD
        (Except.ok (Json.obj [("features", Json.arr [Json.obj [("geometry", Json.num 1)],
          Json.obj [("geometry", Json.num 2)], Json.obj [("geometry", Json.num 3)]])]))
        ldb0 "l" 4326 true)).processed
      + (runJob (backgroundImport envD
        (Except.ok (Json.obj [("features", Json.arr [Json.obj [("geometry", Json.num 1)],
          Json.obj [("geometry", Json.num 2)], Json.obj [("geometry", Json.num 3)]])]))
        ldb0 "l" 4326 true)).errors = 3 := by
  have h := c1_valid_collection_completes envD ldb0 "l" 4326 true
    [("features", Json.arr [Json.obj [("geometry", Json.num 1)],
      Json.obj [("geometry", Json.num 2)], Json.obj [("geometry", Json.num 3)]])]
    [Json.obj [("geometry", Json.num 1)], Json.obj [("geometry", Json.num 2)],
      Json.obj [("geometry", Json.num 3)]]
    (by decide) rfl (by decide) (by decide)
  exact ⟨h.1, h.2.1, h.2.2.1⟩

/-- C7: the pipeline flushes the batch exactly when it reaches the
configured size threshold and flushes any remaining partial batch once after
the last feature: on a clean collection of n features the flush-size trace
is ⌊n / batchSize⌋ full batches of batchSize rows followed by one partial
flush of n mod batchSize rows when the remainder is nonzero, and the run
ends completed with processed = n and errors = 0. -/
theorem c7_flush_schedule (env : Env) (ldb : LayerDB) (nm : String) (srid : Int)
    (rok : Bool) (kvs : List (String × Json)) (feats : List Json)
    (hb : 0 < env.batchSize)
    (hfeat : lookupKey kvs "features" = some (Json.arr feats))
    (hall : feats.all (validFeature env.insertable) = true)
    (hdb : layerDBok ldb = true) :
    (backgroundImport env (Except.ok (Json.obj kvs)) ldb nm srid rok).flushes
        = List.replicate (feats.length / env.batchSize) env.batchSize
            ++ (if feats.length % env.batchSize = 0 then []
                else [feats.length % env.batchSize]) ∧
    (runJob (backgroundImport env (Except.ok (Json.obj kvs)) ldb nm srid rok)).status
        = "completed" ∧
    (runJob (backgroundImport env (Except.ok (Json.obj kvs)) ldb nm srid rok)).processed
        = feats.length ∧
    (runJob (backgroundImport env (Except.ok (Json.obj kvs)) ldb nm srid rok)).errors = 0 := by
  obtain ⟨h1, h2, h3, h4, h5, h6, h7⟩ :=
    run_valid_spec env ldb nm srid rok kvs feats hb hfeat hall hdb
  exact ⟨h7, h1, h3, h4⟩

theorem c7_witness :
    (backgroundImport envD (Except.ok (Json.obj [("features",
        Json.arr (List.replicate 120 (Json.obj [("geometry", Json.num 1)])))]))
        ldb0 "l" 4326 true).flushes = [50, 50, 20] ∧
    (runJob (backgroundImport envD (Except.ok (Json.obj [("features",
        Json.arr (List.replicate 120 (Json.obj [("geometry", Json.num 1)])))]))
        ldb0 "l" 4326 true)).status = "completed" ∧
    (runJob (backgroundImport envD (Except.ok (Json.obj [("features",
        Json.arr (List.replicate 120 (Json.obj [("geometry", Json.num 1)])))]))
        ldb0 "l" 4326 true)).processed = 120 ∧
    (runJob (backgroundImport envD (Except.ok (Json.obj [("features",
        Json.arr (List.replicate 120 (Json.obj [("geometry", Json.num 1)])))]))
        ldb0 "l" 4326 true)).errors = 0 := by
  have h := c7_flush_schedule envD ldb0 "l" 4326 true
    [("features", Json.arr (List.replicate 120 (Json.obj [("geometry", Json.num 1)])))]
    (List.replicate 120 (Json.obj [("geometry", Json.num 1)]))
    (by decide) rfl (by decide) (by decide)
  exact ⟨h.1.trans (by decide), h.2.1, h.2.2.1.trans (by decide), h.2.2.2⟩

/-! ## Missing-geometry accounting (C8) -/

theorem all_filter_of_all {α} (p q : α → Bool) (l : List α) (h : l.all q = true) :
    (l.filter p).all q = true := by
  rw [List.all_eq_true] at h ⊢
  intro x hx
  exact h x (List.mem_of_mem_filter hx)

/-- A flush never moves a row with falsy geometry into the store. -/
theorem flushStep_inserted_nonfalsy (env : Env) (total : Nat) (lbl : String) (dt : Bool)
    (st : PipeState)
    (hbt : st.batch.all (fun r => !pyFalsy r.geom) = true)
    (hin : st.inserted.all (fun r => !pyFalsy r.geom) = true) :
    (flushStep env total lbl dt st).inserted.all (fun r => !pyFalsy r.geom) = true := by
  rw [flushStep_inserted, List.all_append, Bool.and_eq_true]
  refine ⟨hin, ?_⟩
  split
  · exact hbt
  · exact all_filter_of_all _ _ _ hbt

/-- Along the whole loop, every row in the batch and every persisted row has
a truthy geometry (features with falsy geometry are skipped before the batch). -/
theorem processFeatures_nonfalsy (env : Env) (total : Nat) :
    ∀ (feats : List Json) (st : PipeState),
      st.batch.all (fun r => !pyFalsy r.geom) = true →
      st.inserted.all (fun r => !pyFalsy r.geom) = true →
      (processFeatures env total feats st).1.batch.all (fun r => !pyFalsy r.geom) = true ∧
      (processFeatures env total feats st).1.inserted.all (fun r => !pyFalsy r.geom) = true := by
  intro feats
  induction feats with
  | nil => intro st hbt hin; exact ⟨hbt, hin⟩
  | cons f fs ih =>
    intro st hbt hin
    cases f with
    | null => exact ⟨hbt, hin⟩
    | bool b => exact ⟨hbt, hin⟩
    | num n => exact ⟨hbt, hin⟩
    | str s => exact ⟨hbt, hin⟩
    | arr xs => exact ⟨hbt, hin⟩
    | obj kvs =>
      simp only [processFeatures, pyGet]
      cases hg : pyFalsy ((lookupKey kvs "geometry").getD Json.null) with
      | true =>
        simp only [hg, if_true]
        exact ih _ hbt hin
      | false =>
        simp only [hg, Bool.false_eq_true, if_false]
        have hbt1 : (st.batch ++ [Row.mk ((lookupKey kvs "geometry").getD Json.null)
            (pyOr ((lookupKey kvs "properties").getD Json.null) (Json.obj []))]).all
            (fun r => !pyFalsy r.geom) = true := by
          rw [List.all_append, Bool.and_eq_true]
          refine ⟨hbt, ?_⟩
          simp [hg]
        split
        · apply ih
          · rw [flushStep_batch]
            rfl
          · exact flushStep_inserted_nonfalsy env total _ _ _ hbt1 hin
        · exact ih _ hbt1 hin

/-- The trailing partial flush preserves the invariant too. -/
theorem finalState_nonfalsy (env : Env) (total : Nat) (st : PipeState)
    (hbt : st.batch.all (fun r => !pyFalsy r.geom) = true)
    (hin : st.inserted.all (fun r => !pyFalsy r.geom) = true) :
    (finalState env total st).inserted.all (fun r => !pyFalsy r.geom) = true := by
  rw [finalState]
  split
  · exact hin
  · exact flushStep_inserted_nonfalsy env total _ _ _ hbt hin

/-- Behaviour of the loop when every feature is a dict that either lacks a
truthy geometry (skipped, one error each) or carries an insertable one. -/
theorem processFeatures_tame (env : Env) (total : Nat) (hb : 0 < env.batchSize) :
    ∀ (feats : List Json) (st : PipeState),
      feats.all (tameFeature env.insertable) = true →
      st.batch.all (fun r => env.insertable r.geom) = true →
      st.batch.length < env.batchSize →
      (processFeatures env total feats st).2 = none ∧
      (processFeatures env total feats st).1.errors
        = st.errors + (feats.filter featMissingGeom).length ∧
      (processFeatures env total feats st).1.batch.all (fun r => env.insertable r.geom)
        = true := by
  intro feats
  induction feats with
  | nil =>
    intro st hall hgood hlen
    exact ⟨rfl, rfl, hgood⟩
  | cons f fs ih =>
    intro st hall hgood hlen
    rw [List.all_cons, Bool.and_eq_true] at hall
    obtain ⟨hf, hfs⟩ := hall
    cases f with
    | null => simp [tameFeature] at hf
    | bool b => simp [tameFeature] at hf
    | num n => simp [tameFeature] at hf
    | str s => simp [tameFeature] at hf
    | arr xs => simp [tameFeature] at hf
    | obj kvs =>
      simp only [tameFeature, Bool.or_eq_true] at hf
      simp only [processFeatures, pyGet, List.filter_cons]
      cases hg : pyFalsy ((lookupKey kvs "geometry").getD Json.null) with
      | true =>
        have hmiss : featMissingGeom (Json.obj kvs) = true := by
          simp only [featMissingGeom]
          exact hg
        simp only [hg, if_true, hmiss]
        obtain ⟨i0, i1, i2⟩ := ih (PipeState.mk st.processed (st.errors + 1) st.samples
          st.batch st.updates st.inserted st.flushes) hfs hgood hlen
        refine ⟨i0, ?_, i2⟩
        rw [i1]
        simp only [List.length_cons]
        omega
      | false =>
        have hins : env.insertable ((lookupKey kvs "geometry").getD Json.null) = true := by
          cases hf with
          | inl h => rw [hg] at h; exact absurd h (by simp)
          | inr h => exact h
        have hmiss : featMissingGeom (Json.obj kvs) = false := by
          simp only [featMissingGeom]
          exact hg
        simp only [hg, Bool.false_eq_true, if_false, hmiss]
        have hbt1 : (st.batch ++ [Row.mk ((lookupKey kvs "geometry").getD Json.null)
            (pyOr ((lookupKey kvs "properties").getD Json.null) (Json.obj []))]).all
            (fun r => env.insertable r.geom) = true := by
          rw [List.all_append, Bool.and_eq_true]
          refine ⟨hgood, ?_⟩
          simp [hins]
        have hlenapp : (st.batch ++ [Row.mk ((lookupKey kvs "geometry").getD Json.null)
            (pyOr ((lookupKey kvs "properties").getD Json.null) (Json.obj []))]).length
            = st.batch.length + 1 := by simp
        split
        · rename_i hcond
          have hfl : flushBatch env.insertable (st.batch
              ++ [Row.mk ((lookupKey kvs "geometry").getD Json.null)
                  (pyOr ((lookupKey kvs "properties").getD Json.null) (Json.obj []))]) = true :=
            hbt1
          rw [flushStep_success env total "Batch fallback: " true _ hfl]
          obtain ⟨i0, i1, i2⟩ := ih (PipeState.mk
            (st.processed + (st.batch ++ [Row.mk ((lookupKey kvs "geometry").getD Json.null)
              (pyOr ((lookupKey kvs "properties").getD Json.null) (Json.obj []))]).length)
            st.errors st.samples []
            (st.updates ++ [successFlushUpd (st.processed
              + (st.batch ++ [Row.mk ((lookupKey kvs "geometry").getD Json.null)
                  (pyOr ((lookupKey kvs "properties").getD Json.null) (Json.obj []))]).length)
              total st.errors])
            (st.inserted ++ (st.batch ++ [Row.mk ((lookupKey kvs "geometry").getD Json.null)
              (pyOr ((lookupKey kvs "properties").getD Json.null) (Json.obj []))]))
            (st.flushes ++ [(st.batch ++ [Row.mk ((lookupKey kvs "geometry").getD Json.null)
              (pyOr ((lookupKey kvs "properties").getD Json.null) (Json.obj []))]).length]))
            hfs rfl hb
          exact ⟨i0, i1, i2⟩
        · obtain ⟨i0, i1, i2⟩ := ih (PipeState.mk st.processed st.errors st.samples
            (st.batch ++ [Row.mk ((lookupKey kvs "geometry").getD Json.null)
              (pyOr ((lookupKey kvs "properties").getD Json.null) (Json.obj []))])
            st.updates st.inserted st.flushes) hfs hbt1 (by rw [hlenapp]; omega)
          exact ⟨i0, i1, i2⟩

/-- C8: a feature with falsy (null or absent) geometry is never added to a
batch and never persisted — every row ever persisted by any run has a truthy
geometry — and, on a collection whose features are dicts that are otherwise
cleanly insertable, the in-memory errors counter ends at exactly the number
of features with falsy geometry (one increment per occurrence). -/
theorem c8_missing_geometry :
    (∀ (env : Env) (pr : Except String Json) (ldb : LayerDB) (nm : String) (srid : Int)
        (rok : Bool),
      (backgroundImport env pr ldb nm srid rok).inserted.all
        (fun r => !pyFalsy r.geom) = true) ∧
    (∀ (env : Env) (ldb : LayerDB) (nm : String) (srid : Int) (rok : Bool)
        (kvs : List (String × Json)) (feats : List Json),
      0 < env.batchSize →
      lookupKey kvs "features" = some (Json.arr feats) →
      feats.all (tameFeature env.insertable) = true →
      layerDBok ldb = true →
      (backgroundImport env (Except.ok (Json.obj kvs)) ldb nm srid rok).finalErrors
        = (feats.filter featMissingGeom).length) := by
  constructor
  · intro env pr ldb nm srid rok
    show (importBody env pr ldb nm srid).inserted.all _ = true
    cases pr with
    | error e => rfl
    | ok data =>
      cases hg : pyGet data "features" with
      | error e =>
        simp only [importBody, hg]
        rfl
      | ok featuresRaw =>
        cases he : pyElems (pyOr featuresRaw (Json.arr [])) with
        | error e =>
          simp only [importBody, hg, he]
          rfl
        | ok feats =>
          cases hu : (upsertLayer ldb nm (some nm) srid).2 with
          | none =>
            simp only [importBody, hg, he, hu]
            rfl
          | some lid =>
            obtain ⟨hB, hI⟩ := processFeatures_nonfalsy env feats.length feats
              (startState feats.length) rfl rfl
            cases hr : (processFeatures env feats.length feats (startState feats.length)).2 with
            | some e =>
              simp only [importBody, hg, he, hu, hr]
              exact hI
            | none =>
              simp only [importBody, hg, he, hu, hr]
              exact finalState_nonfalsy env feats.length _ hB hI
  · intro env ldb nm srid rok kvs feats hb hfeat hall hdb
    obtain ⟨lid, hup⟩ := upsertLayer_isSome ldb nm (some nm) srid hdb
    obtain ⟨t0, t1, t2⟩ := processFeatures_tame env feats.length hb feats
      (startState feats.length) hall rfl hb
    have hsE : (startState feats.length).errors = 0 := rfl
    rw [hsE, Nat.zero_add] at t1
    have hbody := importBody_collection env ldb nm srid kvs feats lid hfeat hup t0
    show (importBody env (Except.ok (Json.obj kvs)) ldb nm srid).finalErrors = _
    rw [hbody]
    show (finalState env feats.length
        (processFeatures env feats.length feats (startState feats.length)).1).errors = _
    rw [finalState]
    split
    · exact t1
    · rw [flushStep_success env feats.length "Final batch fallback: " false _ t2]
      exact t1

theorem c8_witness :
    (backgroundImport envD (Except.ok (Json.obj [("features",
        Json.arr [Json.obj [], Json.obj [("geometry", Json.num 1)]])]))
        ldb0 "l" 4326 true).finalErrors = 1 ∧
    (backgroundImport envD (Except.ok (Json.obj [("features",
        Json.arr [Json.obj [], Json.obj [("geometry", Json.num 1)]])]))
        ldb0 "l" 4326 true).inserted.all (fun r => !pyFalsy r.geom) = true := by
  refine ⟨?_, c8_missing_geometry.1 envD _ ldb0 "l" 4326 true⟩
  have h := c8_missing_geometry.2 envD ldb0 "l" 4326 true
    [("features", Json.arr [Json.obj [], Json.obj [("geometry", Json.num 1)]])]
    [Json.obj [], Json.obj [("geometry", Json.num 1)]]
    (by decide) rfl (by decide) (by decide)
  exact h.trans (by decide)

end GeoImport
